import Mathlib

/-!
# YellowPay core — verification development

A shallow embedding of the YellowPay client-side protocol stack
(WebSocket transport, authentication handshake, session-key lifecycle,
balance cache) together with theorems checking the natural-language
specification against the code.

Conventions of the embedding:
* JavaScript numbers that are used as integers (timestamps, counters,
  millisecond durations) become `Nat`/`Int`; they stay far below `2^53`,
  where JS arithmetic on them is exact.
* JS `BigInt` becomes `Int`.
* JS `parseFloat` and IEEE-754 binary64 values are modelled exactly with
  integer significand/exponent pairs and round-half-to-even.
* Asynchronous waiting is modelled by an environment value recording which
  message (if any) arrives within the relevant timeout window; `none`
  stands for the timeout firing first.
* `console.log`/`console.error` calls of the source are ignored: they do
  not affect data flow.
-/

/-! ## Transport: `src/src/lib/websocket.ts` (`WebSocketManager`) -/

/-- The four `WebSocket.readyState` constants. -/
inductive WSReadyState where
  | CONNECTING
  | OPEN
  | CLOSING
  | CLOSED
deriving DecidableEq, Repr

/-- The mutable fields of `WebSocketManager` that the queueing and
reconnection logic reads and writes.  `wsReadyState = none` models
`this.ws === null`. -/
structure WSState where
  wsReadyState : Option WSReadyState
  messageQueue : List String
  reconnectAttempts : Nat
deriving DecidableEq, Repr

def WebSocketManager.maxReconnectAttempts : Nat := 10

/-- `scheduleReconnect`: `none` models the early return once
`reconnectAttempts >= maxReconnectAttempts` (no timer is set); otherwise
the incremented attempt counter together with the scheduled delay
`Math.min(1000 * Math.pow(2, attempts), 30000)` in milliseconds.
`Math.pow(2, n)` is exact in binary64 for every `n` reachable here. -/
def WebSocketManager.scheduleReconnect (reconnectAttempts : Nat) : Option (Nat × Nat) :=
  if WebSocketManager.maxReconnectAttempts ≤ reconnectAttempts then none
  else
    let attempts := reconnectAttempts + 1
    some (attempts, min (1000 * 2 ^ attempts) 30000)

/-- `send`: with an open socket the serialized message is transmitted at
once (returned in the second component); otherwise it is appended to
`messageQueue`.  The `connect()` call on the queueing path only swaps the
socket handle (`null`/`CLOSED` → a fresh `CONNECTING` socket) and installs
callbacks; it never touches the queue, so the state it changes is not
tracked here. -/
def WebSocketManager.send (s : WSState) (messageStr : String) : WSState × List String :=
  if s.wsReadyState = some WSReadyState.OPEN then (s, [messageStr])
  else ({ s with messageQueue := s.messageQueue ++ [messageStr] }, [])

/-- The states after a sequence of `send` calls (transmissions dropped). -/
def WebSocketManager.sendAll (s : WSState) (msgs : List String) : WSState :=
  msgs.foldl (fun st m => (WebSocketManager.send st m).1) s

/-- The `while` loop of `flushMessageQueue`: every iteration `shift`s the
head off the queue and transmits it iff `this.ws` is open at that moment
(`openAt i` is the open test observed at iteration `i`); a message shifted
while the socket is not open is discarded.  Returns the transmitted
messages in order. -/
def WebSocketManager.flushLoop (openAt : Nat → Bool) : Nat → List String → List String
  | _, [] => []
  | i, m :: rest =>
      if openAt i then m :: WebSocketManager.flushLoop openAt (i + 1) rest
      else WebSocketManager.flushLoop openAt (i + 1) rest

/-- `flushMessageQueue`: drains the queue completely (the loop runs until
`messageQueue.length === 0`), transmitting each message iff the socket is
open at its turn. -/
def WebSocketManager.flushMessageQueue (s : WSState) (openAt : Nat → Bool) :
    WSState × List String :=
  ({ s with messageQueue := [] }, WebSocketManager.flushLoop openAt 0 s.messageQueue)

/-- `isConnected`: `this.ws !== null && this.ws.readyState === WebSocket.OPEN`. -/
def WebSocketManager.isConnected (ws : Option WSReadyState) : Bool :=
  match ws with
  | some WSReadyState.OPEN => true
  | _ => false

/-! ## Data model: `src/src/types/index.ts` -/

/-- One per-asset spending allowance entry of a session key. -/
structure Allowance where
  asset : String
  amount : String
deriving DecidableEq, Repr

/-- `SessionKey` from `src/src/types/index.ts`; `expiresAt` is a
millisecond Unix timestamp. -/
structure SessionKey where
  privateKey : String
  publicKey : String
  expiresAt : Int
  allowances : List Allowance
deriving DecidableEq, Repr

/-! ## Wire messages

The relay speaks Nitro RPC envelopes `{res: [requestId, method, payload]}`.
The embedding keeps the three positions the code reads (`res[0]`,
`res[1]`, `res[2]`) and, of the payload object, only the fields the code
reads; an absent field or an absent payload is `none`. -/

/-- The fields of `res[2]` the auth and balance code reads. -/
structure ResPayload where
  challengeMessage : Option String
  balance : Option String
deriving DecidableEq, Repr

/-- An inbound message as the handlers see it: `res = none` models an
object without a (truthy) `res` field. -/
structure WireMessage where
  res : Option (Int × String × Option ResPayload)
deriving DecidableEq, Repr

/-! ## Auth handshake: `src/unnamed/part_000` (`AuthManager`) -/

/-- The result value `authenticate` resolves with. -/
structure AuthResult where
  success : Bool
  balance : Option String
  error : Option String
deriving DecidableEq, Repr

/-- The parameters of the auth request envelope (`authParams` in
`_performAuthentication`).  `expiresAt` is in seconds:
`BigInt(Math.floor(sessionKey.expiresAt / 1000))`, exact for timestamps
below `2^53`. -/
structure AuthParams where
  address : String
  application : String
  sessionKey : String
  allowances : List Allowance
  expiresAt : Int
  scope : String
deriving DecidableEq, Repr

/-- The messages `_performAuthentication` hands to `wsManager.send`.  The
envelopes themselves are built by the external nitrolite library; the
embedding records which envelope was sent and, for the auth request, the
parameters it carries. -/
inductive AuthOutbound where
  | authRequest (params : AuthParams)
  | authVerify
deriving DecidableEq, Repr

/-- The asynchronous environment one `_performAuthentication` run
observes: whether the socket is already open when the run starts, whether
a `connect()` attempt reaches the open state within the 5000 ms poll
window, and the first message of each awaited type to arrive within its
10000 ms window (`none` = the timeout fires first). -/
structure AuthEnv where
  connected : Bool
  connectsWithinTimeout : Bool
  authChallenge : Option WireMessage
  authSuccess : Option WireMessage

/-- `waitForMessage`: resolves with the first message of the requested
type, or rejects with `Timeout waiting for <messageType>` when the
`timeout` fires first. -/
def AuthManager.waitForMessage (arrival : Option WireMessage) (messageType : String) :
    Except String WireMessage :=
  match arrival with
  | none => Except.error ("Timeout waiting for " ++ messageType)
  | some m => Except.ok m

/-- `_performAuthentication`: the four-step handshake.  Any rejection
inside the `try` block is caught and turned into a
`{success: false, error}` result.  The returned list holds the envelopes
passed to `wsManager.send`, in order.  The external nitrolite message
constructors and the EIP-712 signer are modelled as always succeeding;
their rejections would be routed through the same `catch`. -/
def AuthManager.performAuthentication (env : AuthEnv) (sessionKey : SessionKey)
    (userAddress : String) : AuthResult × List AuthOutbound :=
  -- connection phase: `waitForConnection 5000` rejects iff the socket is
  -- still not open when the window closes
  if ¬ env.connected ∧ ¬ env.connectsWithinTimeout then
    ({ success := false, balance := none, error := some "WebSocket connection timeout" }, [])
  else
    let authParams : AuthParams :=
      { address := userAddress
        application := "YellowPay Extension"
        sessionKey := sessionKey.publicKey
        allowances := sessionKey.allowances
        expiresAt := Int.fdiv sessionKey.expiresAt 1000
        scope := "content.payments" }
    let sent1 := [AuthOutbound.authRequest authParams]
    match AuthManager.waitForMessage env.authChallenge "auth_challenge" with
    | Except.error e => ({ success := false, balance := none, error := some e }, sent1)
    | Except.ok challengeResponse =>
      match challengeResponse.res with
      | none =>
          ({ success := false, balance := none,
             error := some "Invalid auth_challenge response" }, sent1)
      | some (_, _, none) =>
          ({ success := false, balance := none,
             error := some "Invalid auth_challenge response" }, sent1)
      | some (_, _, some _) =>
        -- sign the challenge with the main wallet and send the verify envelope
        let sent2 := sent1 ++ [AuthOutbound.authVerify]
        match AuthManager.waitForMessage env.authSuccess "auth_success" with
        | Except.error e => ({ success := false, balance := none, error := some e }, sent2)
        | Except.ok successResponse =>
          match successResponse.res with
          | none =>
              ({ success := false, balance := none,
                 error := some "Invalid auth_success response" }, sent2)
          | some (_, _, none) =>
              -- `successResponse.res[2].session_id` dereferences undefined
              ({ success := false, balance := none,
                 error := some "Cannot read properties of undefined" }, sent2)
          | some (_, _, some payload) =>
              ({ success := true, balance := payload.balance, error := none }, sent2)

/-- The `AuthManager` fields driving the single-flight guard.
`authPromise` is the result the in-flight call will resolve with, as a
concurrent caller observes it. -/
structure AuthManagerState where
  authInProgress : Bool
  authPromise : Option AuthResult
deriving DecidableEq, Repr

/-- The state the private constructor produces. -/
def AuthManagerState.initial : AuthManagerState :=
  { authInProgress := false, authPromise := none }

/-- `authenticate`: the single-flight wrapper.  A caller that finds
`authInProgress` set receives the in-flight result and starts nothing (the
`.getD` default is unreachable: the flag is only set while `authPromise`
is populated).  Otherwise a fresh `_performAuthentication` runs, and the
`finally` block clears both fields before the caller observes the result.
The final component records whether a fresh handshake ran. -/
def AuthManager.authenticate (s : AuthManagerState) (env : AuthEnv)
    (sessionKey : SessionKey) (userAddress : String) :
    AuthResult × List AuthOutbound × AuthManagerState × Bool :=
  if s.authInProgress then
    (s.authPromise.getD { success := false, balance := none, error := none }, [], s, false)
  else
    let r := AuthManager.performAuthentication env sessionKey userAddress
    (r.1, r.2, { authInProgress := false, authPromise := none }, true)

/-- `isAuthenticated`: `wsManager.isConnected() && !this.authInProgress`. -/
def AuthManager.isAuthenticated (ws : Option WSReadyState) (s : AuthManagerState) : Bool :=
  WebSocketManager.isConnected ws && !s.authInProgress

/-! ## Balance cache: `src/unnamed/part_002` (`BalanceManager`) -/

/-- One entry of `balanceCache` (a `Map` keyed by asset symbol). -/
structure CacheEntry where
  amount : String
  timestamp : Int
deriving DecidableEq, Repr

/-- `this.cacheDuration = 30000` milliseconds. -/
def BalanceManager.cacheDuration : Int := 30000

/-- `balanceCache.get(asset)`: the cache is an insertion-ordered
association list, as a JS `Map` is. -/
def BalanceManager.cacheGet (cache : List (String × CacheEntry)) (asset : String) :
    Option CacheEntry :=
  (cache.find? (fun p => p.1 == asset)).map (fun p => p.2)

/-- `balanceCache.set(asset, e)`: replace in place, or append. -/
def BalanceManager.cacheSet (cache : List (String × CacheEntry)) (asset : String)
    (e : CacheEntry) : List (String × CacheEntry) :=
  if (cache.find? (fun p => p.1 == asset)).isSome then
    cache.map (fun p => if p.1 == asset then (asset, e) else p)
  else cache ++ [(asset, e)]

/-- What the awaited pull (`waitForBalanceResponse`) comes back with:
`timeout` models its 10000 ms rejection, `transportError` any other
rejection inside the `try` block, and `response msg` resolution with the
first message whose `res[0]` matched the request id. -/
inductive PullOutcome where
  | timeout
  | transportError
  | response (msg : WireMessage)
deriving DecidableEq, Repr

/-- The pull path failed: it rejected, or it resolved with an envelope
lacking `res[2]` (the `throw new Error('Invalid balance response')`
branch). -/
def BalanceManager.pullFails (outcome : PullOutcome) : Bool :=
  match outcome with
  | PullOutcome.timeout => true
  | PullOutcome.transportError => true
  | PullOutcome.response msg =>
      match msg.res with
      | some (_, _, some _) => false
      | _ => true

/-- `getUnifiedBalance`: the fresh-cache fast path, the correlated
`get_balance` pull, the cache update on success, and the catch-all
fallback to the last cached amount (ignoring its age) or `'0'`.  `now` is
`Date.now()` during the call; the `requestId` (also `Date.now()`) does not
affect the result and is dropped.  Returns the resolved string and the
cache afterwards. -/
def BalanceManager.getUnifiedBalance (cache : List (String × CacheEntry)) (now : Int)
    (asset : String) (forceRefresh : Bool) (outcome : PullOutcome) :
    String × List (String × CacheEntry) :=
  let fast : Option String :=
    if forceRefresh then none
    else
      match BalanceManager.cacheGet cache asset with
      | some cached =>
          if now - cached.timestamp < BalanceManager.cacheDuration then some cached.amount
          else none
      | none => none
  match fast with
  | some amount => (amount, cache)
  | none =>
    match outcome with
    | PullOutcome.response msg =>
      match msg.res with
      | some (_, _, some payload) =>
          -- `const balance = response.res[2].balance || '0'`
          let balance :=
            match payload.balance with
            | some b => if b = "" then "0" else b
            | none => "0"
          (balance, BalanceManager.cacheSet cache asset { amount := balance, timestamp := now })
      | _ =>
          -- throw 'Invalid balance response' → catch
          (match BalanceManager.cacheGet cache asset with
           | some cached => cached.amount
           | none => "0", cache)
    | _ =>
        -- rejection → catch
        (match BalanceManager.cacheGet cache asset with
         | some cached => cached.amount
         | none => "0", cache)

/-! ## JavaScript numbers: `parseFloat` and binary64

`needsRotation` compares amount strings with `parseFloat`, i.e. as IEEE-754
binary64 values.  The embedding is exact: a finite double is a significand
/exponent pair, and parsing rounds the decimal value half-to-even onto the
binary64 grid.  All arithmetic is integer arithmetic on `Nat`/`Int`. -/

/-- A JavaScript number as the comparison observes it: NaN, a signed
infinity, or a finite value `(-1)^neg * sig * 2^exp2`. -/
inductive JSNumber where
  | nan
  | inf (neg : Bool)
  | finite (neg : Bool) (sig : Nat) (exp2 : Int)
deriving DecidableEq, Repr

/-- The numeric prefix `parseFloat` recognises: none at all (NaN), a
signed `Infinity` literal, or a finite decimal
`(-1)^neg * mantissa * 10^exp10`. -/
inductive ParsedDecimal where
  | nan
  | infinite (neg : Bool)
  | finite (neg : Bool) (mantissa : Nat) (exp10 : Int)
deriving DecidableEq, Repr

/-- Value of a most-significant-first digit-character run. -/
def digitsVal (cs : List Char) : Nat :=
  cs.foldl (fun a c => 10 * a + (c.toNat - 48)) 0

/-- Value of the exponent part following `e`/`E`: an optional sign and a
digit run; 0 when the digit run is empty (the exponent part is then not
part of the numeric prefix). -/
def expValue (cs : List Char) : Int :=
  let p : Bool × List Char :=
    match cs with
    | '-' :: rest => (true, rest.takeWhile Char.isDigit)
    | '+' :: rest => (false, rest.takeWhile Char.isDigit)
    | _ => (false, cs.takeWhile Char.isDigit)
  if p.2.isEmpty then 0
  else if p.1 then -(digitsVal p.2 : Int) else (digitsVal p.2 : Int)

/-- The decimal value of the longest numeric prefix of the input, after
the JS `parseFloat` grammar: leading whitespace skipped, optional sign,
either an `Infinity` literal or `digits [. digits] [e/E [sign] digits]`
(at least one digit overall, each optional part consumed only when
valid). -/
def parseFloatRaw (s : List Char) : ParsedDecimal :=
  let cs0 := s.dropWhile Char.isWhitespace
  let sp : Bool × List Char :=
    match cs0 with
    | '-' :: rest => (true, rest)
    | '+' :: rest => (false, rest)
    | _ => (false, cs0)
  let neg := sp.1
  let cs := sp.2
  if "Infinity".data.isPrefixOf cs then ParsedDecimal.infinite neg
  else
    let intDigits := cs.takeWhile Char.isDigit
    let cs1 := cs.dropWhile Char.isDigit
    let fp : List Char × List Char :=
      match cs1 with
      | '.' :: rest => (rest.takeWhile Char.isDigit, rest.dropWhile Char.isDigit)
      | _ => ([], cs1)
    let fracDigits := fp.1
    if intDigits.isEmpty && fracDigits.isEmpty then ParsedDecimal.nan
    else
      let e : Int :=
        match fp.2 with
        | 'e' :: rest => expValue rest
        | 'E' :: rest => expValue rest
        | _ => 0
      ParsedDecimal.finite neg (digitsVal (intDigits ++ fracDigits))
        (e - fracDigits.length)

/-- `⌊log2 n⌋` by structural recursion on a fuel bound; fuel 1200 covers
every magnitude the binary64 range distinguishes (beyond it only the
overflow/underflow branch of the rounding is reached, which does not
depend on the exact value). -/
def log2Aux (fuel : Nat) (n : Nat) : Nat :=
  match fuel with
  | 0 => 0
  | fuel + 1 => if n < 2 then 0 else log2Aux fuel (n / 2) + 1

def natLog2 (n : Nat) : Nat := log2Aux 1200 n

/-- Least `k` with `d ≤ m * 2^k`, fuel-bounded like `log2Aux`. -/
def leastKAux (m d : Nat) (fuel : Nat) (k : Nat) : Nat :=
  match fuel with
  | 0 => k
  | fuel + 1 => if d ≤ m * 2 ^ k then k else leastKAux m d fuel (k + 1)

def leastK (m d : Nat) : Nat := leastKAux m d 1200 0

/-- `⌊log2 (m * 10^s)⌋` for `m ≥ 1`. -/
def log2floorScaled (m : Nat) (s : Int) : Int :=
  if 0 ≤ s then (natLog2 (m * 10 ^ s.toNat) : Int)
  else
    let d := 10 ^ (-s).toNat
    if d ≤ m then (natLog2 (m / d) : Int)
    else -(leastK m d : Int)

/-- Round `a / b` (`b > 0`) to the nearest natural number, ties to even. -/
def roundHalfEvenNat (a b : Nat) : Nat :=
  let q := a / b
  let r := a % b
  if 2 * r < b then q
  else if b < 2 * r then q + 1
  else if q % 2 = 0 then q else q + 1

/-- Numerator of `m * 10^s * 2^t` written over `scaledDen s t`. -/
def scaledNum (m : Nat) (s t : Int) : Nat := m * 10 ^ s.toNat * 2 ^ t.toNat

def scaledDen (s t : Int) : Nat := 10 ^ (-s).toNat * 2 ^ (-t).toNat

/-- Round the positive value `m * 10^s` (`m ≥ 1`) to the nearest binary64
value (ties to even): subnormals below `2^-1022` round on the fixed grid
`2^-1074`; otherwise the 53-bit significand grid at the value's binary
magnitude, overflowing to `+∞` past the largest finite double. -/
def roundPosToDouble (m : Nat) (s : Int) : JSNumber :=
  let e := log2floorScaled m s
  if e < -1022 then
    JSNumber.finite false (roundHalfEvenNat (scaledNum m s 1074) (scaledDen s 1074)) (-1074)
  else
    let n := roundHalfEvenNat (scaledNum m s (52 - e)) (scaledDen s (52 - e))
    let ne : Nat × Int := if n = 2 ^ 53 then (2 ^ 52, e + 1) else (n, e)
    if 1023 < ne.2 then JSNumber.inf false
    else JSNumber.finite false ne.1 (ne.2 - 52)

/-- JS `parseFloat`, exactly: parse the decimal prefix, round it onto the
binary64 grid. -/
def parseFloat (s : String) : JSNumber :=
  match parseFloatRaw s.data with
  | ParsedDecimal.nan => JSNumber.nan
  | ParsedDecimal.infinite neg => JSNumber.inf neg
  | ParsedDecimal.finite neg m s10 =>
      if m = 0 then JSNumber.finite neg 0 0
      else
        match roundPosToDouble m s10 with
        | JSNumber.inf _ => JSNumber.inf neg
        | JSNumber.finite _ sig e => JSNumber.finite neg sig e
        | JSNumber.nan => JSNumber.nan

/-- Signed significand of a finite double. -/
def sigInt (neg : Bool) (sig : Nat) : Int := if neg then -(sig : Int) else (sig : Int)

/-- `a * 2^ea ≤ b * 2^eb`, by clearing the exponents. -/
def le2 (a ea b eb : Int) : Bool :=
  if ea ≤ eb then a ≤ b * 2 ^ (eb - ea).toNat
  else a * 2 ^ (ea - eb).toNat ≤ b

/-- `a * 10^ea ≤ b * 10^eb`, by clearing the exponents. -/
def le10 (a ea b eb : Int) : Bool :=
  if ea ≤ eb then a ≤ b * 10 ^ (eb - ea).toNat
  else a * 10 ^ (ea - eb).toNat ≤ b

/-- JS `>=` on numbers: false whenever either side is NaN, otherwise the
numeric order with infinities at the ends. -/
def jsGE : JSNumber → JSNumber → Bool
  | JSNumber.nan, _ => false
  | _, JSNumber.nan => false
  | JSNumber.inf false, _ => true
  | _, JSNumber.inf false => false
  | _, JSNumber.inf true => true
  | JSNumber.inf true, _ => false
  | JSNumber.finite n1 s1 e1, JSNumber.finite n2 s2 e2 =>
      le2 (sigInt n2 s2) e2 (sigInt n1 s1) e1

/-- The comparison the specification asserts for `needsRotation`, written
from the spec's words for comparison with the code: the two amount
strings compared exactly as decimal magnitudes, with no floating-point
rounding. -/
def decimalGE (spent amount : String) : Bool :=
  match parseFloatRaw spent.data, parseFloatRaw amount.data with
  | ParsedDecimal.finite n1 m1 s1, ParsedDecimal.finite n2 m2 s2 =>
      le10 (sigInt n2 m2) s2 (sigInt n1 m1) s1
  | _, _ => false

/-! ## Session keys: `src/unnamed/part_001` (`SessionKeyManager`) -/

/-- `SESSION_KEY_DURATION` from `src/src/config.ts`: one hour in
milliseconds. -/
def SESSION_KEY_DURATION : Int := 3600000

/-- The keypair drawn from the environment's randomness
(`generatePrivateKey` / `privateKeyToAccount` of viem). -/
structure KeyMaterial where
  privateKey : String
  publicKey : String
deriving DecidableEq, Repr

/-- `generateSessionKey`: a fresh keypair with
`expiresAt = Date.now() + SESSION_KEY_DURATION` and the given
allowances. -/
def SessionKeyManager.generateSessionKey (rng : KeyMaterial) (now : Int)
    (allowances : List Allowance) : SessionKey :=
  { privateKey := rng.privateKey
    publicKey := rng.publicKey
    expiresAt := now + SESSION_KEY_DURATION
    allowances := allowances }

/-- `isExpired`: `Date.now() > sessionKey.expiresAt`. -/
def SessionKeyManager.isExpired (now : Int) (sessionKey : SessionKey) : Bool :=
  decide (sessionKey.expiresAt < now)

/-- `needsRotation`: expired, or the first allowance entry for `asset`
exists and `parseFloat(spentAmount) >= parseFloat(allowance.amount)`. -/
def SessionKeyManager.needsRotation (now : Int) (sessionKey : SessionKey)
    (spentAmount : String) (asset : String) : Bool :=
  if SessionKeyManager.isExpired now sessionKey then true
  else
    match sessionKey.allowances.find? (fun a => a.asset == asset) with
    | some allowance =>
        if jsGE (parseFloat spentAmount) (parseFloat allowance.amount) then true
        else false
    | none => false

/-- One `saveToStorage` effect: storage ends up holding
`AES(JSON(sessionKey), password)` under `encryptedSessionKey` and the
plaintext `sessionKey.expiresAt` under `sessionKeyExpiry`; the embedding
records the two inputs that determine the ciphertext. -/
structure StorageWrite where
  sessionKey : SessionKey
  password : String
deriving DecidableEq, Repr

/-- `rotateIfNeeded`: with no current key, or a key that needs rotation,
generate a fresh key carrying the previous allowances (or the default
`[{asset: 'ytest.usd', amount: '100'}]` when there was no key), persist
it, and return it; otherwise return the input key with no write. -/
def SessionKeyManager.rotateIfNeeded (now : Int) (rng : KeyMaterial)
    (sessionKey : Option SessionKey) (spentAmount asset password : String) :
    SessionKey × List StorageWrite :=
  match sessionKey with
  | none =>
      let allowances := [Allowance.mk "ytest.usd" "100"]
      let newSessionKey := SessionKeyManager.generateSessionKey rng now allowances
      (newSessionKey, [StorageWrite.mk newSessionKey password])
  | some k =>
      if SessionKeyManager.needsRotation now k spentAmount asset then
        let newSessionKey := SessionKeyManager.generateSessionKey rng now k.allowances
        (newSessionKey, [StorageWrite.mk newSessionKey password])
      else (k, [])

/-- `loadFromStorage`: `stored` is the ciphertext under the
`encryptedSessionKey` storage key (`none` when absent) and `recover`
stands for the `decrypt` + `JSON.parse` pipeline under the caller's
password — `none` models a throw there (wrong password or corrupt
ciphertext), which the `catch` turns into `null`.  The Bool records
whether `clearFromStorage` ran. -/
def SessionKeyManager.loadFromStorage (now : Int) (stored : Option String)
    (recover : String → Option SessionKey) : Option SessionKey × Bool :=
  match stored with
  | none => (none, false)
  | some ciphertext =>
    match recover ciphertext with
    | none => (none, false)
    | some sessionKey =>
        if SessionKeyManager.isExpired now sessionKey then (none, true)
        else (some sessionKey, false)

/-! ## Decimal strings and BigInt

`formatBalance`/`parseBalance` work on `BigInt`s and decimal strings.
`natDigits` is `Nat.digits 10` by structural recursion (the value itself
bounds the digit count), so that every definition evaluates by `decide`. -/

/-- Little-endian base-10 digits, fuel-bounded. -/
def natDigitsAux (fuel : Nat) (n : Nat) : List Nat :=
  match fuel with
  | 0 => []
  | fuel + 1 => if n = 0 then [] else n % 10 :: natDigitsAux fuel (n / 10)

def natDigits (n : Nat) : List Nat := natDigitsAux n n

def digitToChar (d : Nat) : Char := Char.ofNat (48 + d)

/-- `toString` of a nonnegative JS number/BigInt: most significant digit
first, `"0"` for 0. -/
def toCharsBE (n : Nat) : List Char :=
  if n = 0 then ['0'] else ((natDigits n).map digitToChar).reverse

def natToString (n : Nat) : String := String.mk (toCharsBE n)

/-- `toString` of a BigInt. -/
def intToChars (i : Int) : List Char :=
  if i < 0 then '-' :: toCharsBE i.natAbs else toCharsBE i.toNat

/-- Value of a digit run, most significant first; `none` as soon as a
non-digit occurs; `[]` evaluates to 0 (as `BigInt('')` does). -/
def digitsToNatAux (cs : List Char) : Option Nat :=
  cs.foldl
    (fun acc c =>
      acc.bind (fun a => if c.isDigit then some (10 * a + (c.toNat - 48)) else none))
    (some 0)

/-- `BigInt(string)`: an optional sign followed by decimal digits; `none`
models the thrown SyntaxError.  (The whitespace trimming and the
hex/octal/binary prefixes `BigInt` also accepts never occur on this
code's inputs and are not modelled.) -/
def bigIntOfChars (cs : List Char) : Option Int :=
  match cs with
  | [] => some 0
  | c :: rest =>
      if c = '-' then
        if rest.isEmpty then none
        else (digitsToNatAux rest).map (fun v => -(v : Int))
      else if c = '+' then
        if rest.isEmpty then none
        else (digitsToNatAux rest).map (fun v => (v : Int))
      else (digitsToNatAux (c :: rest)).map (fun v => (v : Int))

/-- `padStart(n, c)`. -/
def padStartChars (cs : List Char) (n : Nat) (c : Char) : List Char :=
  List.replicate (n - cs.length) c ++ cs

/-- `padEnd(n, c)`. -/
def padEndChars (cs : List Char) (n : Nat) (c : Char) : List Char :=
  cs ++ List.replicate (n - cs.length) c

/-- `replace(/0+$/, '')`. -/
def trimTrailingZeros (cs : List Char) : List Char :=
  (cs.reverse.dropWhile (fun c => c == '0')).reverse

/-- `split('.')[0]` and `split('.')[1]`: the run before the first dot,
and, when a dot occurs, the run between the first and second dot (the
destructuring in the source discards any later split segments). -/
def splitDot2 (cs : List Char) : List Char × Option (List Char) :=
  match cs with
  | [] => ([], none)
  | c :: rest =>
      if c = '.' then ([], some (rest.takeWhile (fun x => !(x == '.'))))
      else
        let p := splitDot2 rest
        (c :: p.1, p.2)

/-- `formatBalance`: smallest-unit amount string to fixed-point display
string.  JS computes the divisor as `BigInt(10 ** decimals)`; the float
power `10 ** decimals` is exact in binary64 for `decimals ≤ 22`, which
covers the claimed range, so the divisor is `10 ^ decimals`.  `BigInt`
division and remainder truncate toward zero.  A thrown conversion error
is caught and yields `"0"`. -/
def BalanceManager.formatBalance (amount : String) (decimals : Nat) : String :=
  match bigIntOfChars amount.data with
  | none => "0"
  | some numAmount =>
    let divisor : Int := 10 ^ decimals
    let whole := numAmount.tdiv divisor
    let remainder := numAmount.tmod divisor
    let remainderStr := padStartChars (intToChars remainder) decimals '0'
    let trimmed := trimTrailingZeros remainderStr
    if trimmed.isEmpty then String.mk (intToChars whole)
    else String.mk (intToChars whole ++ '.' :: trimmed)

/-- `parseBalance`: fixed-point display string back to the smallest-unit
amount string.  `BigInt('')` is 0, so a missing fraction contributes
nothing; a thrown conversion error is caught and yields `"0"`. -/
def BalanceManager.parseBalance (formatted : String) (decimals : Nat) : String :=
  let p := splitDot2 formatted.data
  let fraction := p.2.getD []
  let paddedFraction := (padEndChars fraction decimals '0').take decimals
  match bigIntOfChars p.1, bigIntOfChars paddedFraction with
  | some w, some f => String.mk (intToChars (w * 10 ^ decimals + f))
  | _, _ => "0"

/-! ## Theorems -/

/-! ### Claim C4 -/

/-- C4: for every reconnection attempt `n` with `1 ≤ n ≤ 10` the scheduled
backoff delay equals `min (1000 * 2 ^ n) 30000` milliseconds; the delay
sequence is monotonically non-decreasing and capped at 30000 ms, and after
the 10th attempt (`reconnectAttempts = 10`) no 11th automatic attempt is
scheduled. -/
theorem scheduleReconnect_backoff (n : Nat) (h1 : 1 ≤ n) (h2 : n ≤ 10) :
    WebSocketManager.scheduleReconnect (n - 1) = some (n, min (1000 * 2 ^ n) 30000) ∧
    min (1000 * 2 ^ n) 30000 ≤ min (1000 * 2 ^ (n + 1)) 30000 ∧
    min (1000 * 2 ^ n) 30000 ≤ 30000 ∧
    WebSocketManager.scheduleReconnect 10 = none := by
  refine ⟨?_, ?_, min_le_right _ _, rfl⟩
  · have hlt : ¬ WebSocketManager.maxReconnectAttempts ≤ n - 1 := by
      unfold WebSocketManager.maxReconnectAttempts; omega
    have hn : n - 1 + 1 = n := by omega
    simp [WebSocketManager.scheduleReconnect, hlt, hn]
  · refine min_le_min (Nat.mul_le_mul_left _ ?_) le_rfl
    exact Nat.pow_le_pow_right (by norm_num) (Nat.le_succ n)

/-- Witness for `scheduleReconnect_backoff` at the concrete attempt `n = 5`. -/
theorem scheduleReconnect_backoff_witness :
    (1 ≤ 5 ∧ 5 ≤ 10) ∧
    (WebSocketManager.scheduleReconnect (5 - 1) = some (5, min (1000 * 2 ^ 5) 30000) ∧
     min (1000 * 2 ^ 5) 30000 ≤ min (1000 * 2 ^ (5 + 1)) 30000 ∧
     min (1000 * 2 ^ 5) 30000 ≤ 30000 ∧
     WebSocketManager.scheduleReconnect 10 = none) :=
  ⟨⟨by decide, by decide⟩, scheduleReconnect_backoff 5 (by decide) (by decide)⟩

/-! ### Claim C3 -/

/-- The flush loop transmits exactly the queued messages whose turn finds
the socket open, in queue order. -/
theorem flushLoop_eq_filter (openAt : Nat → Bool) (q : List String) (i : Nat) :
    WebSocketManager.flushLoop openAt i q =
      ((q.enumFrom i).filter (fun p => openAt p.1)).map Prod.snd := by
  induction q generalizing i with
  | nil => rfl
  | cons m rest ih =>
      by_cases h : openAt i
      · simp [WebSocketManager.flushLoop, List.enumFrom, List.filter, h, ih]
      · simp [WebSocketManager.flushLoop, List.enumFrom, List.filter, h, ih]

/-- C3 (amended): `send` calls issued while the connection is not open are
appended to the outbound queue in call order; `flushMessageQueue`
transmits each queued message iff the connection is open at its turn and
always leaves the queue empty (messages whose turn finds the connection no
longer open are discarded, not retained); when the connection stays open
throughout the flush, every queued message is transmitted exactly once in
order. -/
theorem send_flush_order (s : WSState) (msgs : List String)
    (h : ¬ s.wsReadyState = some WSReadyState.OPEN) (openAt : Nat → Bool) :
    (WebSocketManager.sendAll s msgs).messageQueue = s.messageQueue ++ msgs ∧
    (∀ q : WSState,
      (WebSocketManager.flushMessageQueue q openAt).2 =
        ((q.messageQueue.enum.filter (fun p => openAt p.1)).map Prod.snd) ∧
      (WebSocketManager.flushMessageQueue q openAt).1.messageQueue = []) ∧
    ((∀ i, openAt i = true) →
      (WebSocketManager.flushMessageQueue (WebSocketManager.sendAll s msgs) openAt).2 =
        s.messageQueue ++ msgs) := by
  have hq : (WebSocketManager.sendAll s msgs).messageQueue = s.messageQueue ++ msgs ∧
      (WebSocketManager.sendAll s msgs).wsReadyState = s.wsReadyState := by
    induction msgs generalizing s with
    | nil => simp [WebSocketManager.sendAll]
    | cons m rest ih =>
        have hstep : WebSocketManager.send s m =
            ({ s with messageQueue := s.messageQueue ++ [m] }, []) := by
          simp [WebSocketManager.send, h]
        have := ih { s with messageQueue := s.messageQueue ++ [m] } (by simpa using h)
        simpa [WebSocketManager.sendAll, hstep] using this
  refine ⟨hq.1, ?_, ?_⟩
  · intro q
    exact ⟨by simpa [List.enum] using flushLoop_eq_filter openAt q.messageQueue 0, rfl⟩
  · intro hopen
    have hall : ∀ (q : List String) (i : Nat), WebSocketManager.flushLoop openAt i q = q := by
      intro q
      induction q with
      | nil => intro i; rfl
      | cons m rest ih => intro i; simp [WebSocketManager.flushLoop, hopen i, ih (i + 1)]
    simp only [WebSocketManager.flushMessageQueue, hall, hq.1]

/-- Witness for `send_flush_order`: two messages queued while disconnected,
then flushed with the connection open throughout. -/
theorem send_flush_order_witness :
    (¬ (⟨none, [], 0⟩ : WSState).wsReadyState = some WSReadyState.OPEN) ∧
    ((WebSocketManager.sendAll ⟨none, [], 0⟩ ["a", "b"]).messageQueue = [] ++ ["a", "b"] ∧
     (∀ q : WSState,
       (WebSocketManager.flushMessageQueue q (fun _ => true)).2 =
         ((q.messageQueue.enum.filter (fun p => (fun _ : Nat => true) p.1)).map Prod.snd) ∧
       (WebSocketManager.flushMessageQueue q (fun _ => true)).1.messageQueue = []) ∧
     ((∀ i : Nat, (fun _ : Nat => true) i = true) →
       (WebSocketManager.flushMessageQueue
         (WebSocketManager.sendAll ⟨none, [], 0⟩ ["a", "b"]) (fun _ => true)).2 =
         [] ++ ["a", "b"])) :=
  ⟨by decide, send_flush_order ⟨none, [], 0⟩ ["a", "b"] (by decide) (fun _ => true)⟩

/-- C3 counterexample: queue `["a", "b"]`, connection open at the first
loop turn only.  The flush transmits `"a"`, and `"b"` is removed from the
queue without being transmitted — the final queue is `[]`, not `["b"]`, so
the not-yet-sent remainder does not stay queued as the claim states. -/
theorem flush_drops_remainder_counterexample :
    (WebSocketManager.flushMessageQueue ⟨some WSReadyState.OPEN, ["a", "b"], 0⟩
        (fun i => decide (i = 0))).2 = ["a"] ∧
    (WebSocketManager.flushMessageQueue ⟨some WSReadyState.OPEN, ["a", "b"], 0⟩
        (fun i => decide (i = 0))).1.messageQueue = [] ∧
    ¬ (WebSocketManager.flushMessageQueue ⟨some WSReadyState.OPEN, ["a", "b"], 0⟩
        (fun i => decide (i = 0))).1.messageQueue = ["b"] := by
  refine ⟨rfl, rfl, by decide⟩

/-! ### Claim C1 -/

/-- C1: when no `auth_challenge` message arrives within its 10000 ms
window, `authenticate` resolves (it does not throw) with
`{success: false, error: "Timeout waiting for auth_challenge"}`, the
single-flight guard `authInProgress` is clear afterwards, and a subsequent
`authenticate` call runs a fresh handshake rather than receiving the old
result. -/
theorem authenticate_challenge_timeout (s : AuthManagerState) (env : AuthEnv)
    (k : SessionKey) (addr : String)
    (hidle : s.authInProgress = false)
    (hconn : env.connected = true)
    (hchal : env.authChallenge = none) :
    (AuthManager.authenticate s env k addr).1 =
      { success := false, balance := none,
        error := some "Timeout waiting for auth_challenge" } ∧
    (AuthManager.authenticate s env k addr).2.2.1.authInProgress = false ∧
    (∀ (env2 : AuthEnv) (k2 : SessionKey) (addr2 : String),
      (AuthManager.authenticate
        (AuthManager.authenticate s env k addr).2.2.1 env2 k2 addr2).2.2.2 = true) := by
  refine ⟨?_, ?_, ?_⟩ <;>
    simp [AuthManager.authenticate, AuthManager.performAuthentication,
      AuthManager.waitForMessage, hidle, hconn, hchal]

/-- Witness for `authenticate_challenge_timeout`: idle manager, open
socket, server silent. -/
theorem authenticate_challenge_timeout_witness :
    (AuthManagerState.initial.authInProgress = false ∧
     (AuthEnv.mk true true none none).connected = true ∧
     (AuthEnv.mk true true none none).authChallenge = none) ∧
    ((AuthManager.authenticate AuthManagerState.initial (AuthEnv.mk true true none none)
        (SessionKey.mk "sk" "pk" 1700000000000 []) "0xabc").1 =
      { success := false, balance := none,
        error := some "Timeout waiting for auth_challenge" } ∧
     (AuthManager.authenticate AuthManagerState.initial (AuthEnv.mk true true none none)
        (SessionKey.mk "sk" "pk" 1700000000000 []) "0xabc").2.2.1.authInProgress = false ∧
     (∀ (env2 : AuthEnv) (k2 : SessionKey) (addr2 : String),
       (AuthManager.authenticate
         (AuthManager.authenticate AuthManagerState.initial (AuthEnv.mk true true none none)
           (SessionKey.mk "sk" "pk" 1700000000000 []) "0xabc").2.2.1
         env2 k2 addr2).2.2.2 = true)) :=
  ⟨⟨rfl, rfl, rfl⟩,
   authenticate_challenge_timeout AuthManagerState.initial (AuthEnv.mk true true none none)
     (SessionKey.mk "sk" "pk" 1700000000000 []) "0xabc" rfl rfl rfl⟩

/-! ### Claim C8 -/

/-- C8: when the awaited `auth_challenge` message lacks the expected
challenge payload (`res` absent, or `res[2]` absent), `authenticate`
resolves with the invalid-challenge failure result and never sends a
verification envelope. -/
theorem authenticate_invalid_challenge (s : AuthManagerState) (env : AuthEnv)
    (k : SessionKey) (addr : String) (m : WireMessage)
    (hidle : s.authInProgress = false)
    (hconn : env.connected = true)
    (hchal : env.authChallenge = some m)
    (hm : m.res = none ∨ ∃ r meth, m.res = some (r, meth, none)) :
    (AuthManager.authenticate s env k addr).1 =
      { success := false, balance := none,
        error := some "Invalid auth_challenge response" } ∧
    AuthOutbound.authVerify ∉ (AuthManager.authenticate s env k addr).2.1 := by
  rcases hm with hm | ⟨r, meth, hm⟩ <;>
    simp [AuthManager.authenticate, AuthManager.performAuthentication,
      AuthManager.waitForMessage, hidle, hconn, hchal, hm]

/-- Witness for `authenticate_invalid_challenge`: a challenge envelope
whose `res[2]` is absent. -/
theorem authenticate_invalid_challenge_witness :
    (AuthManagerState.initial.authInProgress = false ∧
     (WireMessage.mk (some (7, "auth_challenge", none))).res =
       some (7, "auth_challenge", none)) ∧
    ((AuthManager.authenticate AuthManagerState.initial
        (AuthEnv.mk true true (some (WireMessage.mk (some (7, "auth_challenge", none)))) none)
        (SessionKey.mk "sk" "pk" 1700000000000 []) "0xabc").1 =
      { success := false, balance := none,
        error := some "Invalid auth_challenge response" } ∧
     AuthOutbound.authVerify ∉
       (AuthManager.authenticate AuthManagerState.initial
         (AuthEnv.mk true true (some (WireMessage.mk (some (7, "auth_challenge", none)))) none)
         (SessionKey.mk "sk" "pk" 1700000000000 []) "0xabc").2.1) :=
  ⟨⟨rfl, rfl⟩,
   authenticate_invalid_challenge AuthManagerState.initial
     (AuthEnv.mk true true (some (WireMessage.mk (some (7, "auth_challenge", none)))) none)
     (SessionKey.mk "sk" "pk" 1700000000000 []) "0xabc"
     (WireMessage.mk (some (7, "auth_challenge", none)))
     rfl rfl rfl (Or.inr ⟨7, "auth_challenge", rfl⟩)⟩

/-! ### Claim C10 -/

/-- C10: `isAuthenticated` is true iff the transport connection is open
and no handshake is in flight; it reads nothing but those two facts (any
two states agreeing on `authInProgress` agree on `isAuthenticated`), and
in particular it is already true in the freshly constructed state, before
any handshake has ever completed. -/
theorem isAuthenticated_spec :
    (∀ (ws : Option WSReadyState) (s : AuthManagerState),
      AuthManager.isAuthenticated ws s = true ↔
        (ws = some WSReadyState.OPEN ∧ s.authInProgress = false)) ∧
    (∀ (ws : Option WSReadyState) (s t : AuthManagerState),
      s.authInProgress = t.authInProgress →
        AuthManager.isAuthenticated ws s = AuthManager.isAuthenticated ws t) ∧
    AuthManager.isAuthenticated (some WSReadyState.OPEN) AuthManagerState.initial = true := by
  refine ⟨?_, ?_, rfl⟩
  · intro ws s
    rcases ws with _ | st
    · simp [AuthManager.isAuthenticated, WebSocketManager.isConnected]
    · cases st <;>
        simp [AuthManager.isAuthenticated, WebSocketManager.isConnected]
  · intro ws s t hst
    simp [AuthManager.isAuthenticated, hst]

/-! ### Claim C2 -/

/-- C2: on every failure of the pull path (timeout, malformed response
lacking `res[2]`, transport error) `getUnifiedBalance` resolves — never
raising to its caller, as the embedding is a total function into `String`
— with the last cached amount for the asset when a cache entry exists,
and `"0"` otherwise. -/
theorem getUnifiedBalance_failure_fallback (cache : List (String × CacheEntry)) (now : Int)
    (asset : String) (forceRefresh : Bool) (outcome : PullOutcome)
    (hfail : BalanceManager.pullFails outcome = true) :
    (BalanceManager.getUnifiedBalance cache now asset forceRefresh outcome).1 =
      match BalanceManager.cacheGet cache asset with
      | some cached => cached.amount
      | none => "0" := by
  unfold BalanceManager.getUnifiedBalance
  rcases outcome with _ | _ | msg
  · rcases hc : BalanceManager.cacheGet cache asset with _ | cached
    · simp [hc]
    · by_cases hfresh : now - cached.timestamp < BalanceManager.cacheDuration <;>
        cases forceRefresh <;> simp [hc, hfresh]
  · rcases hc : BalanceManager.cacheGet cache asset with _ | cached
    · simp [hc]
    · by_cases hfresh : now - cached.timestamp < BalanceManager.cacheDuration <;>
        cases forceRefresh <;> simp [hc, hfresh]
  · rcases hm : msg.res with _ | ⟨r, meth, _ | payload⟩
    · rcases hc : BalanceManager.cacheGet cache asset with _ | cached
      · simp [hc, hm]
      · by_cases hfresh : now - cached.timestamp < BalanceManager.cacheDuration <;>
          cases forceRefresh <;> simp [hc, hfresh, hm]
    · rcases hc : BalanceManager.cacheGet cache asset with _ | cached
      · simp [hc, hm]
      · by_cases hfresh : now - cached.timestamp < BalanceManager.cacheDuration <;>
          cases forceRefresh <;> simp [hc, hfresh, hm]
    · simp [BalanceManager.pullFails, hm] at hfail

/-- Witness for `getUnifiedBalance_failure_fallback`: a timed-out pull
with a stale cache entry present falls back to that entry. -/
theorem getUnifiedBalance_failure_fallback_witness :
    BalanceManager.pullFails PullOutcome.timeout = true ∧
    (BalanceManager.getUnifiedBalance [("usd", CacheEntry.mk "2500000" 0)] 100000
        "usd" false PullOutcome.timeout).1 =
      match BalanceManager.cacheGet [("usd", CacheEntry.mk "2500000" 0)] "usd" with
      | some cached => cached.amount
      | none => "0" :=
  ⟨rfl, getUnifiedBalance_failure_fallback [("usd", CacheEntry.mk "2500000" 0)] 100000
    "usd" false PullOutcome.timeout rfl⟩

/-! ### Claim C6 -/

/-- With at most one allowance entry per asset, `find?` returns the
matching entry. -/
theorem find_allowance_of_mem (l : List Allowance) (asset : String)
    (huniq : l.Pairwise (fun a b => a.asset ≠ b.asset))
    (a : Allowance) (ha : a ∈ l) (hasset : a.asset = asset) :
    l.find? (fun x => x.asset == asset) = some a := by
  induction l with
  | nil => cases ha
  | cons hd tl ih =>
      have hp := List.pairwise_cons.mp huniq
      rcases List.mem_cons.mp ha with rfl | hmem
      · exact List.find?_cons_of_pos _ (by simp [hasset])
      · have hne : hd.asset ≠ asset := fun h => hp.1 a hmem (by rw [h, hasset])
        rw [List.find?_cons_of_neg _ (by simp [hne])]
        exact ih hp.2 hmem

/-- C6 (amended): with at most one allowance entry per asset (the data
model's invariant), `needsRotation` returns true iff the key is expired
(`now > expiresAt`) or an allowance entry for the asset exists and
`spentAmount >= amount` holds with both strings converted by `parseFloat`
to IEEE-754 binary64 doubles (not compared as exact decimal magnitudes);
in particular it returns false whenever the key is unexpired and no
allowance entry exists for the asset. -/
theorem needsRotation_spec (now : Int) (k : SessionKey) (spent asset : String)
    (huniq : k.allowances.Pairwise (fun a b => a.asset ≠ b.asset)) :
    (SessionKeyManager.needsRotation now k spent asset = true ↔
      (k.expiresAt < now ∨
        ∃ a ∈ k.allowances, a.asset = asset ∧
          jsGE (parseFloat spent) (parseFloat a.amount) = true)) ∧
    ((¬ k.expiresAt < now ∧ ∀ a ∈ k.allowances, a.asset ≠ asset) →
      SessionKeyManager.needsRotation now k spent asset = false) := by
  constructor
  · unfold SessionKeyManager.needsRotation SessionKeyManager.isExpired
    by_cases hexp : k.expiresAt < now
    · simp [hexp]
    · simp only [hexp, decide_False, if_false, Bool.false_eq_true, false_or]
      rcases hfind : k.allowances.find? (fun x => x.asset == asset) with _ | a
      · rw [hfind]
        have hnone := List.find?_eq_none.mp hfind
        constructor
        · intro h; simp at h
        · rintro ⟨b, hb, hbasset, -⟩
          have := hnone b hb
          simp [hbasset] at this
      · rw [hfind]
        have hmem : a ∈ k.allowances := List.mem_of_find?_eq_some hfind
        have hassn : a.asset = asset := by
          have := List.find?_some hfind
          simpa using this
        constructor
        · intro h
          refine ⟨a, hmem, hassn, ?_⟩
          by_cases hjs : jsGE (parseFloat spent) (parseFloat a.amount) = true
          · exact hjs
          · simp [hjs] at h
        · rintro ⟨b, hb, hbasset, hjs⟩
          have hfb : k.allowances.find? (fun x => x.asset == asset) = some b :=
            find_allowance_of_mem _ _ huniq b hb hbasset
          rw [hfind] at hfb
          injection hfb with hab
          rw [← hab] at hjs
          simp [hjs]
  · rintro ⟨hexp, hnone⟩
    have hfind : k.allowances.find? (fun x => x.asset == asset) = none :=
      List.find?_eq_none.mpr (fun a ha => by simp [hnone a ha])
    simp [SessionKeyManager.needsRotation, SessionKeyManager.isExpired, hexp, hfind]

/-- Witness for `needsRotation_spec`: a single-allowance key, unexpired,
with the spend over the limit. -/
theorem needsRotation_spec_witness :
    ((SessionKey.mk "sk" "pk" 10 [Allowance.mk "usd" "100"]).allowances.Pairwise
      (fun a b => a.asset ≠ b.asset)) ∧
    ((SessionKeyManager.needsRotation 0 (SessionKey.mk "sk" "pk" 10 [Allowance.mk "usd" "100"])
        "150" "usd" = true ↔
      ((SessionKey.mk "sk" "pk" 10 [Allowance.mk "usd" "100"]).expiresAt < 0 ∨
        ∃ a ∈ (SessionKey.mk "sk" "pk" 10 [Allowance.mk "usd" "100"]).allowances,
          a.asset = "usd" ∧ jsGE (parseFloat "150") (parseFloat a.amount) = true)) ∧
     ((¬ (SessionKey.mk "sk" "pk" 10 [Allowance.mk "usd" "100"]).expiresAt < 0 ∧
        ∀ a ∈ (SessionKey.mk "sk" "pk" 10 [Allowance.mk "usd" "100"]).allowances,
          a.asset ≠ "usd") →
      SessionKeyManager.needsRotation 0 (SessionKey.mk "sk" "pk" 10 [Allowance.mk "usd" "100"])
        "150" "usd" = false)) :=
  ⟨by simp, needsRotation_spec 0 (SessionKey.mk "sk" "pk" 10 [Allowance.mk "usd" "100"])
    "150" "usd" (by simp)⟩

/-- C6 counterexample: the unexpired key allows `9007199254740993` (that
is `2^53 + 1`) of `"usd"` and `9007199254740992` (= `2^53`) was spent.
As decimal magnitudes the spend is strictly below the allowance, so the
claim predicts `needsRotation = false`; but `parseFloat` rounds both
strings to the same double `2^53`, so the code returns true. -/
theorem needsRotation_decimal_counterexample :
    SessionKeyManager.needsRotation 0
        (SessionKey.mk "sk" "pk" 10 [Allowance.mk "usd" "9007199254740993"])
        "9007199254740992" "usd" = true ∧
    SessionKeyManager.isExpired 0
        (SessionKey.mk "sk" "pk" 10 [Allowance.mk "usd" "9007199254740993"]) = false ∧
    (SessionKey.mk "sk" "pk" 10 [Allowance.mk "usd" "9007199254740993"]).allowances.find?
        (fun a => a.asset == "usd") = some (Allowance.mk "usd" "9007199254740993") ∧
    decimalGE "9007199254740992" "9007199254740993" = false :=
  ⟨by decide, by decide, by decide, by decide⟩

/-! ### Claim C9 -/

/-- C9: `rotateIfNeeded` with no current key generates a fresh key with
the default allowance set `[{asset: 'ytest.usd', amount: '100'}]` and
expiry `now + SESSION_KEY_DURATION`, persists exactly that key under the
password, and returns it; with a key that needs no rotation it returns
the input key unchanged and performs no storage write. -/
theorem rotateIfNeeded_spec (now : Int) (rng : KeyMaterial)
    (spentAmount asset password : String) (k : SessionKey)
    (hk : SessionKeyManager.needsRotation now k spentAmount asset = false) :
    (SessionKeyManager.rotateIfNeeded now rng none spentAmount asset password =
      (SessionKey.mk rng.privateKey rng.publicKey (now + SESSION_KEY_DURATION)
         [Allowance.mk "ytest.usd" "100"],
       [StorageWrite.mk
         (SessionKey.mk rng.privateKey rng.publicKey (now + SESSION_KEY_DURATION)
           [Allowance.mk "ytest.usd" "100"]) password])) ∧
    SessionKeyManager.rotateIfNeeded now rng (some k) spentAmount asset password = (k, []) := by
  constructor
  · rfl
  · simp [SessionKeyManager.rotateIfNeeded, hk]

/-- Witness for `rotateIfNeeded_spec`: an unexpired key with no
allowance entry for the asset needs no rotation. -/
theorem rotateIfNeeded_spec_witness :
    SessionKeyManager.needsRotation 0 (SessionKey.mk "sk" "pk" 10 []) "5" "usd" = false ∧
    ((SessionKeyManager.rotateIfNeeded 0 (KeyMaterial.mk "nsk" "npk") none "5" "usd" "Pass1234" =
      (SessionKey.mk "nsk" "npk" (0 + SESSION_KEY_DURATION) [Allowance.mk "ytest.usd" "100"],
       [StorageWrite.mk
         (SessionKey.mk "nsk" "npk" (0 + SESSION_KEY_DURATION) [Allowance.mk "ytest.usd" "100"])
         "Pass1234"])) ∧
     SessionKeyManager.rotateIfNeeded 0 (KeyMaterial.mk "nsk" "npk")
       (some (SessionKey.mk "sk" "pk" 10 [])) "5" "usd" "Pass1234" =
       (SessionKey.mk "sk" "pk" 10 [], [])) :=
  ⟨by decide, rotateIfNeeded_spec 0 (KeyMaterial.mk "nsk" "npk") "5" "usd" "Pass1234"
    (SessionKey.mk "sk" "pk" 10 []) (by decide)⟩

/-! ### Claim C7 -/

/-- C7 counterexample: a stored ciphertext whose decryption fails (the
`recover` pipeline throws, e.g. wrong password) makes `loadFromStorage`
return exactly the same result as when no ciphertext is stored: `null`
with no storage mutation.  The two outcomes are not distinct. -/
theorem loadFromStorage_failure_counterexample :
    SessionKeyManager.loadFromStorage 0 (some "ciphertext") (fun _ => none) =
      SessionKeyManager.loadFromStorage 0 none (fun _ => none) := rfl

/-- C7 (amended): `loadFromStorage` reports a decryption failure (wrong
password or corrupt ciphertext, i.e. any throw in the decrypt/parse
pipeline) with the very same `null` result it returns when no ciphertext
is stored; the failure is only logged, not distinguished in the return
value. -/
theorem loadFromStorage_failure_amended (now : Int) (stored : String)
    (recover : String → Option SessionKey) (h : recover stored = none) :
    SessionKeyManager.loadFromStorage now (some stored) recover = (none, false) ∧
    SessionKeyManager.loadFromStorage now none recover = (none, false) := by
  simp [SessionKeyManager.loadFromStorage, h]

/-- Witness for `loadFromStorage_failure_amended`. -/
theorem loadFromStorage_failure_amended_witness :
    ((fun _ : String => (none : Option SessionKey)) "ct" = none) ∧
    (SessionKeyManager.loadFromStorage 0 (some "ct") (fun _ => none) = (none, false) ∧
     SessionKeyManager.loadFromStorage 0 none (fun _ : String => (none : Option SessionKey)) =
       (none, false)) :=
  ⟨rfl, loadFromStorage_failure_amended 0 "ct" (fun _ => none) rfl⟩

/-! ### Claim C5 -/

theorem natDigitsAux_eq (fuel n : Nat) (h : n ≤ fuel) :
    natDigitsAux fuel n = Nat.digits 10 n := by
  induction fuel generalizing n with
  | zero =>
      have hn : n = 0 := Nat.le_zero.mp h
      subst hn; simp [natDigitsAux]
  | succ fuel ih =>
      by_cases h0 : n = 0
      · subst h0; simp [natDigitsAux]
      · have hlt : n / 10 < n := Nat.div_lt_self (Nat.pos_of_ne_zero h0) (by norm_num)
        rw [natDigitsAux]
        simp only [h0, if_false]
        rw [ih (n / 10) (by omega),
          Nat.digits_def' (by norm_num : (1 : Nat) < 10) (Nat.pos_of_ne_zero h0)]

theorem natDigits_eq (n : Nat) : natDigits n = Nat.digits 10 n :=
  natDigitsAux_eq n n le_rfl

theorem digitToChar_spec (d : Nat) (hd : d < 10) :
    (digitToChar d).isDigit = true ∧ (digitToChar d).toNat - 48 = d ∧
    digitToChar d ≠ '-' ∧ digitToChar d ≠ '+' ∧ digitToChar d ≠ '.' := by
  interval_cases d <;>
    exact ⟨by decide, by decide, by decide, by decide, by decide⟩

theorem digitsToNat_fold_digits (ds : List Nat) (hds : ∀ d ∈ ds, d < 10) (a : Nat) :
    List.foldl
      (fun acc c =>
        acc.bind (fun x => if c.isDigit then some (10 * x + (c.toNat - 48)) else none))
      (some a) (ds.map digitToChar) =
    some (List.foldl (fun x d => 10 * x + d) a ds) := by
  induction ds generalizing a with
  | nil => rfl
  | cons d tl ih =>
      obtain ⟨h1, h2, -⟩ := digitToChar_spec d (hds d (by simp))
      simp only [List.map_cons, List.foldl_cons, Option.bind_eq_bind, Option.some_bind,
        h1, if_true, h2]
      exact ih (fun e he => hds e (by simp [he])) (10 * a + d)

theorem digitsToNatAux_map (ds : List Nat) (hds : ∀ d ∈ ds, d < 10) :
    digitsToNatAux (ds.map digitToChar) =
      some (List.foldl (fun x d => 10 * x + d) 0 ds) := by
  unfold digitsToNatAux
  exact digitsToNat_fold_digits ds hds 0

theorem foldl_digits_reverse (L : List Nat) :
    List.foldl (fun x d => 10 * x + d) 0 L.reverse = Nat.ofDigits 10 L := by
  rw [List.foldl_reverse]
  induction L with
  | nil => simp [Nat.ofDigits]
  | cons d tl ih => simp only [List.foldr_cons, ih, Nat.ofDigits_cons, Nat.cast_id]; ring

theorem digitsToNatAux_toCharsBE (n : Nat) : digitsToNatAux (toCharsBE n) = some n := by
  by_cases h0 : n = 0
  · subst h0; rfl
  · rw [toCharsBE, if_neg h0, natDigits_eq, ← List.map_reverse]
    rw [digitsToNatAux_map _
      (fun d hd => Nat.digits_lt_base (by norm_num) (List.mem_reverse.mp hd))]
    rw [foldl_digits_reverse, Nat.ofDigits_digits]

theorem toCharsBE_digits (n : Nat) : ∀ c ∈ toCharsBE n, c.isDigit = true := by
  intro c hc
  by_cases h0 : n = 0
  · subst h0
    simp [toCharsBE] at hc
    subst hc; decide
  · rw [toCharsBE, if_neg h0, List.mem_reverse] at hc
    obtain ⟨d, hd, rfl⟩ := List.mem_map.mp hc
    rw [natDigits_eq] at hd
    exact (digitToChar_spec d (Nat.digits_lt_base (by norm_num) hd)).1

theorem isDigit_ne (c : Char) (h : c.isDigit = true) :
    c ≠ '-' ∧ c ≠ '+' ∧ c ≠ '.' := by
  refine ⟨?_, ?_, ?_⟩ <;> rintro rfl <;> exact absurd h (by decide)

theorem bigIntOfChars_digits (cs : List Char) (h : ∀ c ∈ cs, c.isDigit = true) :
    bigIntOfChars cs = (digitsToNatAux cs).map (fun v => (v : Int)) := by
  cases cs with
  | nil => rfl
  | cons c rest =>
      obtain ⟨h1, h2, -⟩ := isDigit_ne c (h c (by simp))
      simp [bigIntOfChars, h1, h2]

theorem bigIntOfChars_toCharsBE (n : Nat) :
    bigIntOfChars (toCharsBE n) = some (n : Int) := by
  rw [bigIntOfChars_digits _ (toCharsBE_digits n), digitsToNatAux_toCharsBE]
  rfl

theorem digitsToNatAux_replicate_zero_append (k : Nat) (cs : List Char) :
    digitsToNatAux (List.replicate k '0' ++ cs) = digitsToNatAux cs := by
  induction k with
  | zero => rfl
  | succ k ih =>
      rw [List.replicate_succ, List.cons_append]
      unfold digitsToNatAux at ih ⊢
      simpa using ih

theorem digitsToNatAux_replicate_zero (k : Nat) :
    digitsToNatAux (List.replicate k '0') = some 0 := by
  have h := digitsToNatAux_replicate_zero_append k []
  simpa using h

theorem trimTrailingZeros_exists (cs : List Char) :
    ∃ k, cs = trimTrailingZeros cs ++ List.replicate k '0' := by
  refine ⟨(cs.reverse.takeWhile (fun c => c == '0')).length, ?_⟩
  have htake : (cs.reverse.takeWhile (fun c => c == '0')).reverse =
      List.replicate (cs.reverse.takeWhile (fun c => c == '0')).length '0' := by
    have hmem : ∀ b ∈ (cs.reverse.takeWhile (fun c => c == '0')).reverse, b = '0' := by
      intro b hb
      rw [List.mem_reverse] at hb
      have := List.mem_takeWhile_imp hb
      simpa using this
    have := List.eq_replicate_of_mem hmem
    simpa using this
  calc cs = cs.reverse.reverse := (List.reverse_reverse cs).symm
    _ = (cs.reverse.takeWhile (fun c => c == '0') ++
          cs.reverse.dropWhile (fun c => c == '0')).reverse := by
        rw [List.takeWhile_append_dropWhile]
    _ = (cs.reverse.dropWhile (fun c => c == '0')).reverse ++
          (cs.reverse.takeWhile (fun c => c == '0')).reverse := by
        rw [List.reverse_append]
    _ = trimTrailingZeros cs ++
          List.replicate (cs.reverse.takeWhile (fun c => c == '0')).length '0' := by
        rw [trimTrailingZeros, htake]

theorem trimTrailingZeros_subset (cs : List Char) :
    ∀ c ∈ trimTrailingZeros cs, c ∈ cs := by
  intro c hc
  rw [trimTrailingZeros, List.mem_reverse] at hc
  exact List.mem_reverse.mp ((List.dropWhile_sublist _).subset hc)

theorem trimTrailingZeros_eq_nil (cs : List Char) (h : trimTrailingZeros cs = []) :
    cs = List.replicate cs.length '0' := by
  rw [trimTrailingZeros] at h
  have h2 : cs.reverse.dropWhile (fun c => c == '0') = [] := by
    have := congrArg List.reverse h
    simpa using this
  have hall := List.dropWhile_eq_nil_iff.mp h2
  refine List.eq_replicate_of_mem (fun b hb => ?_)
  have := hall b (List.mem_reverse.mpr hb)
  simpa using this

theorem trimTrailingZeros_replicate (k : Nat) :
    trimTrailingZeros (List.replicate k '0') = [] := by
  rw [trimTrailingZeros, List.reverse_replicate]
  rw [List.dropWhile_eq_nil_iff.mpr (fun x hx => by
    rw [List.eq_of_mem_replicate hx]; rfl)]
  rfl

theorem takeWhile_no_dot (f : List Char) (hf : ∀ c ∈ f, c ≠ '.') :
    f.takeWhile (fun x => !(x == '.')) = f := by
  induction f with
  | nil => rfl
  | cons c rest ih =>
      rw [List.takeWhile_cons, if_pos (by simp [hf c (by simp)])]
      rw [ih (fun x hx => hf x (by simp [hx]))]

theorem splitDot2_no_dot (cs : List Char) (h : ∀ c ∈ cs, c ≠ '.') :
    splitDot2 cs = (cs, none) := by
  induction cs with
  | nil => rfl
  | cons c rest ih =>
      rw [splitDot2, if_neg (h c (by simp)), ih (fun x hx => h x (by simp [hx]))]

theorem splitDot2_append (w f : List Char) (hw : ∀ c ∈ w, c ≠ '.')
    (hf : ∀ c ∈ f, c ≠ '.') :
    splitDot2 (w ++ '.' :: f) = (w, some f) := by
  induction w with
  | nil =>
      rw [List.nil_append, splitDot2, if_pos rfl, takeWhile_no_dot f hf]
  | cons c rest ih =>
      rw [List.cons_append, splitDot2, if_neg (hw c (by simp)),
        ih (fun x hx => hw x (by simp [hx]))]

theorem toCharsBE_length_le (R d : Nat) (h : R < 10 ^ d) (hd : 1 ≤ d) :
    (toCharsBE R).length ≤ d := by
  by_cases h0 : R = 0
  · subst h0; simpa [toCharsBE] using hd
  · rw [toCharsBE, if_neg h0]
    simp only [List.length_reverse, List.length_map]
    rw [natDigits_eq, Nat.digits_len 10 R (by norm_num) h0]
    have := (Nat.lt_pow_iff_log_lt (by norm_num : 1 < 10) h0).mp h
    omega

theorem bigIntOfChars_replicate_zero (k : Nat) :
    bigIntOfChars (List.replicate k '0') = some 0 := by
  rw [bigIntOfChars_digits _ (fun c hc => by rw [List.eq_of_mem_replicate hc]; decide),
    digitsToNatAux_replicate_zero]
  rfl

/-- C5: for every nonnegative integer `x`, given as its decimal string in
smallest units, and every decimals value `d ≤ 18`,
`parseBalance (formatBalance x d) d` returns exactly `x` again; both
conversions run in exact `BigInt` integer arithmetic. -/
theorem formatBalance_parseBalance_roundtrip (x d : Nat) (hd : d ≤ 18) :
    BalanceManager.parseBalance (BalanceManager.formatBalance (natToString x) d) d =
      natToString x := by
  have hpow : (0 : Nat) < 10 ^ d := pow_pos (by norm_num) d
  have hRlt : x % 10 ^ d < 10 ^ d := Nat.mod_lt _ hpow
  have hx : 10 ^ d * (x / 10 ^ d) + x % 10 ^ d = x := Nat.div_add_mod x (10 ^ d)
  have h10 : ((10 : Int) ^ d) = ((10 ^ d : Nat) : Int) := by push_cast; ring
  have hWnn : ¬ (((x / 10 ^ d : Nat) : Int) < 0) := not_lt.mpr (Int.natCast_nonneg _)
  have hRnn : ¬ (((x % 10 ^ d : Nat) : Int) < 0) := not_lt.mpr (Int.natCast_nonneg _)
  have hrsval : digitsToNatAux (padStartChars (toCharsBE (x % 10 ^ d)) d '0') =
      some (x % 10 ^ d) := by
    rw [padStartChars, digitsToNatAux_replicate_zero_append, digitsToNatAux_toCharsBE]
  have hrsdig : ∀ c ∈ padStartChars (toCharsBE (x % 10 ^ d)) d '0', c.isDigit = true := by
    intro c hc
    rw [padStartChars, List.mem_append] at hc
    rcases hc with hc | hc
    · rw [List.eq_of_mem_replicate hc]; decide
    · exact toCharsBE_digits _ c hc
  -- evaluate formatBalance
  have hformat : BalanceManager.formatBalance (natToString x) d =
      if (trimTrailingZeros (padStartChars (toCharsBE (x % 10 ^ d)) d '0')).isEmpty
      then String.mk (toCharsBE (x / 10 ^ d))
      else String.mk (toCharsBE (x / 10 ^ d) ++ '.' ::
        trimTrailingZeros (padStartChars (toCharsBE (x % 10 ^ d)) d '0')) := by
    unfold BalanceManager.formatBalance
    rw [show (natToString x).data = toCharsBE x from rfl, bigIntOfChars_toCharsBE]
    simp only [h10,
      show ((x : Int)).tdiv (((10 ^ d : Nat) : Int)) = ((x / 10 ^ d : Nat) : Int) from rfl,
      show ((x : Int)).tmod (((10 ^ d : Nat) : Int)) = ((x % 10 ^ d : Nat) : Int) from rfl,
      intToChars, hWnn, if_false, hRnn, Int.toNat_natCast]
  rw [hformat]
  by_cases hnil :
      trimTrailingZeros (padStartChars (toCharsBE (x % 10 ^ d)) d '0') = []
  · -- the fraction trimmed away entirely: the remainder is zero
    have hR0 : x % 10 ^ d = 0 := by
      have hrep := trimTrailingZeros_eq_nil _ hnil
      have := hrsval
      rw [hrep, digitsToNatAux_replicate_zero] at this
      exact (Option.some.inj this).symm
    have hxW : 10 ^ d * (x / 10 ^ d) = x := by omega
    rw [if_pos (List.isEmpty_iff.mpr hnil)]
    unfold BalanceManager.parseBalance
    rw [show (String.mk (toCharsBE (x / 10 ^ d))).data = toCharsBE (x / 10 ^ d) from rfl]
    rw [splitDot2_no_dot _ (fun c hc => (isDigit_ne c (toCharsBE_digits _ c hc)).2.2)]
    simp only [Option.getD_none]
    rw [show padEndChars [] d '0' = List.replicate d '0' from rfl]
    rw [show (List.replicate d '0').take d = List.replicate d '0' by
      rw [List.take_replicate, min_self]]
    rw [bigIntOfChars_toCharsBE, bigIntOfChars_replicate_zero]
    show String.mk (intToChars (((x / 10 ^ d : Nat) : Int) * 10 ^ d + 0)) = natToString x
    have hval : ((x / 10 ^ d : Nat) : Int) * (10 : Int) ^ d + 0 = ((x : Nat) : Int) := by
      have hcast := congrArg (fun n : Nat => (n : Int)) hxW
      push_cast at hcast ⊢
      linear_combination hcast
    rw [hval]
    rw [show intToChars ((x : Nat) : Int) = toCharsBE x by
      simp [intToChars, not_lt.mpr (Int.natCast_nonneg x), Int.toNat_natCast]]
    rfl
  · -- a nonempty fraction remains
    have hR0 : x % 10 ^ d ≠ 0 := by
      intro h0
      apply hnil
      have : toCharsBE (x % 10 ^ d) = List.replicate 1 '0' := by rw [h0]; rfl
      rw [padStartChars, this, ← List.replicate_add]
      exact trimTrailingZeros_replicate _
    have hd1 : 1 ≤ d := by
      by_contra hlt
      have : d = 0 := by omega
      subst this
      simp at hRlt
      omega
    have hlenR : (padStartChars (toCharsBE (x % 10 ^ d)) d '0').length = d := by
      have hle := toCharsBE_length_le (x % 10 ^ d) d hRlt hd1
      simp only [padStartChars, List.length_append, List.length_replicate]
      omega
    rw [if_neg (by simpa [List.isEmpty_iff] using hnil)]
    unfold BalanceManager.parseBalance
    rw [show (String.mk (toCharsBE (x / 10 ^ d) ++ '.' ::
        trimTrailingZeros (padStartChars (toCharsBE (x % 10 ^ d)) d '0'))).data =
      toCharsBE (x / 10 ^ d) ++ '.' ::
        trimTrailingZeros (padStartChars (toCharsBE (x % 10 ^ d)) d '0') from rfl]
    rw [splitDot2_append _ _
      (fun c hc => (isDigit_ne c (toCharsBE_digits _ c hc)).2.2)
      (fun c hc => (isDigit_ne c (hrsdig c (trimTrailingZeros_subset _ c hc))).2.2)]
    simp only [Option.getD_some]
    obtain ⟨k, hk⟩ := trimTrailingZeros_exists (padStartChars (toCharsBE (x % 10 ^ d)) d '0')
    have hklen : k = d - (trimTrailingZeros
        (padStartChars (toCharsBE (x % 10 ^ d)) d '0')).length := by
      have := congrArg List.length hk
      simp only [List.length_append, List.length_replicate, hlenR] at this
      omega
    rw [show padEndChars
        (trimTrailingZeros (padStartChars (toCharsBE (x % 10 ^ d)) d '0')) d '0' =
        padStartChars (toCharsBE (x % 10 ^ d)) d '0' by
      rw [padEndChars, ← hklen, ← hk]]
    rw [show (padStartChars (toCharsBE (x % 10 ^ d)) d '0').take d =
        padStartChars (toCharsBE (x % 10 ^ d)) d '0' from
      List.take_of_length_le (le_of_eq hlenR)]
    rw [bigIntOfChars_toCharsBE,
      bigIntOfChars_digits _ hrsdig, hrsval]
    show String.mk (intToChars (((x / 10 ^ d : Nat) : Int) * 10 ^ d +
      ((x % 10 ^ d : Nat) : Int))) = natToString x
    have hval : ((x / 10 ^ d : Nat) : Int) * (10 : Int) ^ d + ((x % 10 ^ d : Nat) : Int) =
        ((x : Nat) : Int) := by
      have hcast := congrArg (fun n : Nat => (n : Int)) hx
      push_cast at hcast ⊢
      linear_combination hcast
    rw [hval]
    rw [show intToChars ((x : Nat) : Int) = toCharsBE x by
      simp [intToChars, not_lt.mpr (Int.natCast_nonneg x), Int.toNat_natCast]]
    rfl

/-- Witness for `formatBalance_parseBalance_roundtrip` at
`x = 1234567`, `d = 6`. -/
theorem formatBalance_parseBalance_roundtrip_witness :
    6 ≤ 18 ∧
    BalanceManager.parseBalance (BalanceManager.formatBalance (natToString 1234567) 6) 6 =
      natToString 1234567 :=
  ⟨by decide, formatBalance_parseBalance_roundtrip 1234567 6 (by decide)⟩
